import Mathlib

/-
Verification of the provider-configuration migration scripts
(`update_all_providers.py` and `update_providers.py`).

Source text is modelled as `List Char`.  The scripts' regular expressions
use only literal characters, ASCII character classes (`\w`, `\s`, `[^}]`,
`[^{}]`), greedy `*`/`+`, capturing groups and non-capturing groups, so the
regex engine below implements exactly these constructs with Python's
backtracking semantics: leftmost match position, greedy quantifiers that
backtrack, a repetition stops once an iteration consumes no input.
Character classes are modelled at ASCII precision, which covers every text
the scripts are applied to.
-/

/-- Characters of a string literal; the representation of Python text used throughout. -/
def lstr (s : String) : List Char := s.data

/-- Python regex character class `\s` (ASCII part). -/
def isPySpace (c : Char) : Bool :=
  c == ' ' || c == '\t' || c == '\n' || c == '\r' || c == '\x0b' || c == '\x0c'

/-- Python regex character class `\w` (ASCII part). -/
def isWordCh (c : Char) : Bool := c.isAlphanum || c == '_'

/-- The character class containing only a left brace. -/
def isLB (c : Char) : Bool := c == '\x7b'

/-- The character class containing only a right brace. -/
def isRB (c : Char) : Bool := c == '\x7d'

/-- Python regex character class `[^}]`. -/
def isNotRB (c : Char) : Bool := !(c == '\x7d')

/-- Python regex character class `[^{}]`. -/
def isNotBrace (c : Char) : Bool := !(c == '\x7b' || c == '\x7d')

/-- The character class containing only a colon. -/
def isColon (c : Char) : Bool := c == ':'

/-- The character class containing only an equals sign. -/
def isEqCh (c : Char) : Bool := c == '='

/-- Regular expressions over the constructs actually used by the scripts. -/
inductive RE where
  | eps
  | ch (p : Char → Bool)
  | seq (a b : RE)
  | star (r : RE)
  | group (n : Nat) (r : RE)

/-- Captured groups: group number paired with captured text. -/
abbrev Caps := List (Nat × List Char)

/-- Result of a whole match attempt: length of the leftover suffix plus captures. -/
abbrev MRes := Nat × Caps

/-- A matching continuation: receives the leftover input and captures so far. -/
abbrev MK := List Char → Caps → Option MRes

/-- Greedy repetition of a matcher `m`, trying more iterations first and
backtracking to fewer; an iteration that consumes nothing ends the repetition.
`fuel` bounds the number of iterations (each iteration consumes at least one
character, so the length of the input suffices). -/
def starFirst (m : List Char → Caps → MK → Option MRes) :
    Nat → List Char → Caps → MK → Option MRes
  | 0, s, caps, k => k s caps
  | fuel+1, s, caps, k =>
    match m s caps (fun s' caps' =>
        if s'.length < s.length then starFirst m fuel s' caps' k else none) with
    | some r => some r
    | none => k s caps

/-- The backtracking matcher, in continuation-passing style.  All ways of
matching a prefix of the input are tried in Python's priority order; the
first for which the continuation succeeds is returned. -/
def matcherOf : RE → List Char → Caps → MK → Option MRes
  | .eps => fun s caps k => k s caps
  | .ch p => fun s caps k =>
      match s with
      | [] => none
      | c :: cs => if p c then k cs caps else none
  | .seq a b => fun s caps k =>
      matcherOf a s caps (fun s' caps' => matcherOf b s' caps' k)
  | .star r => fun s caps k => starFirst (matcherOf r) s.length s caps k
  | .group n r => fun s caps k =>
      matcherOf r s caps (fun s' caps' =>
        k s' ((n, s.take (s.length - s'.length)) :: caps'))

/-- A literal string as a regular expression. -/
def reStr : List Char → RE
  | [] => .eps
  | c :: cs => .seq (.ch (fun d => d == c)) (reStr cs)

/-- Greedy `*` over a character class. -/
def starC (p : Char → Bool) : RE := .star (.ch p)

/-- Greedy `+` over a character class, as one occurrence followed by `*`. -/
def plusC (p : Char → Bool) : RE := .seq (.ch p) (.star (.ch p))

/-- Attempt a match anchored at the start of `s`; on success, the number of
characters consumed and the captures. -/
def topMatch (r : RE) (s : List Char) : Option (Nat × Caps) :=
  match matcherOf r s [] (fun rest caps => some (rest.length, caps)) with
  | some (restLen, caps) => some (s.length - restLen, caps)
  | none => none

/-- A Python match object: absolute start and end of the match within the
scanned text, and the captured groups (group 0 is the whole match). -/
structure PyMatch where
  mstart : Nat
  mend : Nat
  caps : Caps
deriving Repr, DecidableEq

/-- `match.group(n)` of a Python match object. -/
def pygroup (m : PyMatch) (n : Nat) : List Char := (m.caps.lookup n).getD []

/-- The scanning loop of Python `re.sub`: at each position try the pattern;
on a match emit the replacement and continue after the match (after one
extra character when the match is empty), otherwise copy one character. -/
def subScan (r : RE) (repl : PyMatch → List Char) : Nat → Nat → List Char → List Char
  | 0, _, s => s
  | fuel+1, pos, s =>
    match topMatch r s with
    | some (consumed, caps) =>
      if consumed = 0 then
        match s with
        | [] => repl ⟨pos, pos, (0, []) :: caps⟩
        | c :: cs => repl ⟨pos, pos, (0, []) :: caps⟩ ++ c :: subScan r repl fuel (pos+1) cs
      else
        repl ⟨pos, pos + consumed, (0, s.take consumed) :: caps⟩ ++
          subScan r repl fuel (pos + consumed) (s.drop consumed)
    | none =>
      match s with
      | [] => []
      | c :: cs => c :: subScan r repl fuel (pos+1) cs

/-- Python `re.sub(r, repl, s)` for a replacement function `repl`. -/
def pysub (r : RE) (repl : PyMatch → List Char) (s : List Char) : List Char :=
  subScan r repl (s.length + 1) 0 s

/-- The scanning loop of Python `re.finditer`. -/
def finditerAux (r : RE) : Nat → Nat → List Char → List PyMatch
  | 0, _, _ => []
  | fuel+1, pos, s =>
    match topMatch r s with
    | some (consumed, caps) =>
      if consumed = 0 then
        ⟨pos, pos, (0, []) :: caps⟩ ::
          (match s with
           | [] => []
           | _ :: cs => finditerAux r fuel (pos+1) cs)
      else
        ⟨pos, pos + consumed, (0, s.take consumed) :: caps⟩ ::
          finditerAux r fuel (pos + consumed) (s.drop consumed)
    | none =>
      match s with
      | [] => []
      | _ :: cs => finditerAux r fuel (pos+1) cs

/-- Python `re.finditer(r, s)`: all non-overlapping matches, left to right. -/
def finditer (r : RE) (s : List Char) : List PyMatch :=
  finditerAux r (s.length + 1) 0 s

/-- Python `str.strip()` (whitespace from both ends). -/
def pystrip (l : List Char) : List Char :=
  ((l.dropWhile isPySpace).reverse.dropWhile isPySpace).reverse

/-- Python slice `l[a:b]`. -/
def pyslice (l : List Char) (a b : Nat) : List Char := (l.take b).drop a

/-- Python `str.lower()` (ASCII). -/
def pyLower (l : List Char) : List Char := l.map Char.toLower

/-- Python `str.find(c, start)` and `str.index(c)` for a single character,
on text that contains the character at or after `start` (every use in the
scripts is on text the pattern guarantees contains it); absent characters
give the length of the text. -/
def pyfindFrom (l : List Char) (c : Char) (start : Nat) : Nat :=
  match (l.drop start).findIdx? (fun d => d == c) with
  | some i => start + i
  | none => l.length

/-- Python `str.rfind(c)` on text that contains the character. -/
def pyrfind (l : List Char) (c : Char) : Nat :=
  match l.reverse.findIdx? (fun d => d == c) with
  | some i => l.length - 1 - i
  | none => l.length

/-
The regular expressions of `update_all_providers.py`, transcribed
constructor by constructor.  Sequencing is associated to make the literal
that each pattern necessarily contains directly accessible.
-/

/-- Inner body shared by the multiline and const patterns:
`[^{}]*(?:\{[^{}]*\}[^{}]*)*`. -/
def mlInner : RE :=
  .seq (starC isNotBrace)
    (.star (.seq (.ch isLB) (.seq (starC isNotBrace) (.seq (.ch isRB) (starC isNotBrace)))))

/-- Pattern 1 of the batch script: `(\w+):\s*\{\s*apiKey:\s*[^}]+\}`. -/
def simplePat : RE :=
  .seq (.group 1 (plusC isWordCh))
    (.seq (.ch isColon)
      (.seq (starC isPySpace)
        (.seq (.ch isLB)
          (.seq (starC isPySpace)
            (.seq (reStr (lstr "apiKey:"))
              (.seq (starC isPySpace)
                (.seq (plusC isNotRB) (.ch isRB))))))))

/-- Tail of the multiline pattern after its leading literal. -/
def mlTail : RE :=
  .seq (starC isPySpace) (.seq (.ch isLB) (.seq (.group 1 mlInner) (.ch isRB)))

/-- Pattern 2 of the batch script:
`providers:\s*\{([^{}]*(?:\{[^{}]*\}[^{}]*)*)\}`. -/
def multilinePat : RE := .seq (reStr (lstr "providers:")) mlTail

/-- Head of the env pattern: `(\w+):\s*`. -/
def envHead : RE :=
  .seq (.group 1 (plusC isWordCh)) (.seq (.ch isColon) (starC isPySpace))

/-- Env pattern of the batch script: `(\w+):\s*process\.env\.(\w+)`. -/
def envPat : RE :=
  .seq envHead (.seq (reStr (lstr "process.env.")) (.group 2 (plusC isWordCh)))

/-- Head of the return pattern: `return\s*\{\s*(\w+):\s*\{\s*`. -/
def retHead : RE :=
  .seq (reStr (lstr "return"))
    (.seq (starC isPySpace)
      (.seq (.ch isLB)
        (.seq (starC isPySpace)
          (.seq (.group 1 (plusC isWordCh))
            (.seq (.ch isColon)
              (.seq (starC isPySpace)
                (.seq (.ch isLB) (starC isPySpace))))))))

/-- Tail of the return pattern: `\s*[^}]+\}\s*\}`. -/
def retTail : RE :=
  .seq (starC isPySpace)
    (.seq (plusC isNotRB) (.seq (.ch isRB) (.seq (starC isPySpace) (.ch isRB))))

/-- Return pattern of the batch script:
`return\s*\{\s*(\w+):\s*\{\s*apiKey:\s*[^}]+\}\s*\}`. -/
def returnPat : RE := .seq retHead (.seq (reStr (lstr "apiKey:")) retTail)

/-- Head of the first group of the const pattern: `const\s+\w+\s*=\s*\{[^}]*`. -/
def constHead : RE :=
  .seq (reStr (lstr "const"))
    (.seq (plusC isPySpace)
      (.seq (plusC isWordCh)
        (.seq (starC isPySpace)
          (.seq (.ch isEqCh)
            (.seq (starC isPySpace)
              (.seq (.ch isLB) (starC isNotRB)))))))

/-- Tail of the const pattern after group 1:
`\{([^{}]*(?:\{[^{}]*\}[^{}]*)*)\}([^}]*\})`. -/
def constTail : RE :=
  .seq (.ch isLB)
    (.seq (.group 2 mlInner)
      (.seq (.ch isRB) (.group 3 (.seq (starC isNotRB) (.ch isRB)))))

/-- Const pattern of the batch script:
`(const\s+\w+\s*=\s*\{[^}]*providers:\s*)\{([^{}]*(?:\{[^{}]*\}[^{}]*)*)\}([^}]*\})`. -/
def constPat : RE :=
  .seq (.group 1 (.seq constHead (.seq (reStr (lstr "providers:")) (starC isPySpace)))) constTail

/-
The regular expressions of `update_providers.py`.
-/

/-- Tail of the single-file simple pattern after its leading literal:
`\s*\{\s*(\w+):\s*\{\s*([^}]+)\s*\}\s*\}`. -/
def suTail : RE :=
  .seq (starC isPySpace)
    (.seq (.ch isLB)
      (.seq (starC isPySpace)
        (.seq (.group 1 (plusC isWordCh))
          (.seq (.ch isColon)
            (.seq (starC isPySpace)
              (.seq (.ch isLB)
                (.seq (starC isPySpace)
                  (.seq (.group 2 (plusC isNotRB))
                    (.seq (starC isPySpace)
                      (.seq (.ch isRB)
                        (.seq (starC isPySpace) (.ch isRB))))))))))))

/-- Single-file simple pattern:
`providers:\s*\{\s*(\w+):\s*\{\s*([^}]+)\s*\}\s*\}`. -/
def simplePatU : RE := .seq (reStr (lstr "providers:")) suTail

/-- One iteration of the single-file multi pattern body: `\{[^}]+\}[^}]*`. -/
def muIter : RE :=
  .seq (.ch isLB) (.seq (plusC isNotRB) (.seq (.ch isRB) (starC isNotRB)))

/-- Body of group 1 of the single-file multi pattern: `[^}]+(?:\{[^}]+\}[^}]*)+`. -/
def muInner : RE := .seq (plusC isNotRB) (.seq muIter (.star muIter))

/-- Tail of the single-file multi pattern after its leading literal. -/
def muTail : RE :=
  .seq (starC isPySpace) (.seq (.ch isLB) (.seq (.group 1 muInner) (.ch isRB)))

/-- Single-file multi pattern: `providers:\s*\{([^}]+(?:\{[^}]+\}[^}]*)+)\}`. -/
def multiPatU : RE := .seq (reStr (lstr "providers:")) muTail

/-- Provider pattern used by `re.findall` inside `replace_multi`:
`(\w+):\s*\{([^}]+)\}`. -/
def providerPatU : RE :=
  .seq (.group 1 (plusC isWordCh))
    (.seq (.ch isColon)
      (.seq (starC isPySpace)
        (.seq (.ch isLB) (.seq (.group 2 (plusC isNotRB)) (.ch isRB)))))

/-- Python `re.findall` for a pattern with two groups. -/
def pyfindall (r : RE) (s : List Char) : List (List Char × List Char) :=
  (finditer r s).map (fun m => (pygroup m 1, pygroup m 2))

/-
Replacement functions of `update_all_providers.py`.
-/

/-- `replace_simple_provider` (defined in the script but never installed as
a top-level pass; `simple_pattern` is used only via `re.finditer` inside the
multiline and const replacement functions). -/
def replace_simple_provider (m : PyMatch) : List Char :=
  let provider_name := pygroup m 1
  let full_config := pygroup m 0
  let config_part := full_config.drop (pyfindFrom full_config '\x7b' 0)
  provider_name ++ lstr ": \x7b\n            default: " ++ config_part ++ lstr ",\n          \x7d"

/-- The `config_part` computed for one provider fragment inside
`replace_multiline_providers` and `replace_const_config`: the slice of the
block body after `name:`, stripped, with a trailing comma removed. -/
def mlConfigPart (providers_content : List Char) (pm : PyMatch) : List Char :=
  let config_start := pm.mstart + (pygroup pm 1).length + 1
  let cp1 := pystrip (pyslice providers_content config_start pm.mend)
  if cp1.getLast? == some ',' then cp1.dropLast else cp1

/-- One provider entry emitted by `replace_multiline_providers` (and by
`replace_const_config`, which builds the identical entry text). -/
def mlEntry (providers_content : List Char) (pm : PyMatch) : List Char :=
  lstr "          " ++ pygroup pm 1 ++ lstr ": \x7b\n            default: " ++
    mlConfigPart providers_content pm ++ lstr ",\n          \x7d,\n"

/-- `replace_multiline_providers` of the batch script. -/
def replace_multiline_providers (m : PyMatch) : List Char :=
  let providers_content := pygroup m 1
  let pms := finditer simplePat providers_content
  if pms.isEmpty then pygroup m 0
  else
    (pms.foldl (fun result pm => result ++ mlEntry providers_content pm)
      (lstr "providers: \x7b\n")) ++ lstr "        \x7d"

/-- `replace_env_assignment` of the batch script. -/
def replace_env_assignment (m : PyMatch) : List Char :=
  let provider := pyLower (pygroup m 1)
  let env_var := pygroup m 2
  provider ++ lstr ": \x7b\n            default: \x7b apiKey: process.env." ++
    env_var ++ lstr " \x7d,\n          \x7d"

/-- `replace_return_config` of the batch script. -/
def replace_return_config (m : PyMatch) : List Char :=
  let g0 := pygroup m 0
  let provider := pygroup m 1
  let config_start := pyfindFrom g0 '\x7b' (pyfindFrom g0 ':' 0)
  let config_end := pyrfind g0 '\x7d'
  let config_part := pyslice g0 config_start (config_end + 1)
  lstr "return \x7b\n    " ++ provider ++ lstr ": \x7b\n      default: " ++
    config_part ++ lstr ",\n    \x7d,\n  \x7d"

/-- `replace_const_config` of the batch script. -/
def replace_const_config (m : PyMatch) : List Char :=
  let pfx := pygroup m 1
  let providers_content := pygroup m 2
  let sfx := pygroup m 3
  let pms := finditer simplePat providers_content
  if pms.isEmpty then pygroup m 0
  else
    let new_providers :=
      (pms.foldl (fun np pm => np ++ mlEntry providers_content pm) (lstr "\x7b\n")) ++
        lstr "        \x7d"
    pfx ++ new_providers ++ sfx

/-- `update_provider_config` of the batch script.  Returns the transformed
text together with the log lines produced; the filename argument is used
only in the log. -/
def update_provider_config (content : List Char) (filename : List Char) :
    List Char × List (List Char) :=
  if (lstr "default: \x7b") <:+: content ∧ (lstr "providers: \x7b") <:+: content then
    (content, [])
  else
    let log := lstr "Processing " ++ filename ++ lstr "..."
    let c1 := pysub multilinePat replace_multiline_providers content
    let c2 := pysub envPat replace_env_assignment c1
    let c3 := pysub returnPat replace_return_config c2
    let c4 := pysub constPat replace_const_config c3
    (c4, [log])

/-
`update_providers.py`.
-/

/-- `replace_simple` of the single-file script. -/
def replace_simple (m : PyMatch) : List Char :=
  let provider := pygroup m 1
  let config := pystrip (pygroup m 2)
  lstr "providers: \x7b\n          " ++ provider ++
    lstr ": \x7b\n            default: \x7b " ++ config ++
    lstr " \x7d,\n          \x7d,\n        \x7d"

/-- The `config` computed for one provider pair inside `replace_multi`:
stripped, with a trailing comma removed. -/
def muConfig (pc : List Char × List Char) : List Char :=
  let config0 := pystrip pc.2
  if config0.getLast? == some ',' then config0.dropLast else config0

/-- One provider entry emitted by `replace_multi`. -/
def muEntry (pc : List Char × List Char) : List Char :=
  lstr "          " ++ pc.1 ++ lstr ": \x7b\n            default: \x7b " ++
    muConfig pc ++ lstr " \x7d,\n          \x7d,\n"

/-- `replace_multi` of the single-file script. -/
def replace_multi (m : PyMatch) : List Char :=
  let providers_content := pygroup m 1
  let providers := pyfindall providerPatU providers_content
  if providers.length ≤ 1 then pygroup m 0
  else
    (providers.foldl (fun result pc => result ++ muEntry pc) (lstr "providers: \x7b\n")) ++
      lstr "        \x7d"

/-- `update_provider_configs` of the single-file script. -/
def update_provider_configs (content : List Char) : List Char :=
  let c1 := pysub simplePatU replace_simple content
  pysub multiPatU replace_multi c1

/-- Whether the pattern matches at some position of the text (the
scanning loops rewrite something iff this holds). -/
def searchHit (r : RE) : List Char → Bool
  | [] => (topMatch r []).isSome
  | c :: cs => (topMatch r (c :: cs)).isSome || searchHit r cs

/-
Driver pipelines.  File-system effects are modelled by an oracle giving
each location's existence, read result and write result; an `Except` value
stands for a Python exception.
-/

/-- Oracle for file-system behaviour. -/
structure FSModel where
  fexists : List Char → Bool
  fread : List Char → Except (List Char) (List Char)
  fwrite : List Char → List Char → Except (List Char) Unit

/-- Per-file outcome of the batch loop. -/
inductive BatchOutcome where
  | skippedMissing
  | caughtError (msg : List Char)
  | updated
  | noChanges
deriving Repr, DecidableEq

/-- Body of the `try` block of the batch script's per-file loop; an
`Except.error` is an exception escaping the block. -/
def processFileExc (fs : FSModel) (file_path : List Char) :
    Except (List Char) BatchOutcome :=
  match fs.fread file_path with
  | .error e => .error e
  | .ok content =>
    let updated_content := (update_provider_config content file_path).1
    if updated_content ≠ content then
      match fs.fwrite file_path updated_content with
      | .error e => .error e
      | .ok _ => .ok .updated
    else .ok .noChanges

/-- The `except Exception` handler of the batch loop: every exception is
caught and turned into a logged outcome. -/
def runCatch : Except (List Char) BatchOutcome → BatchOutcome
  | .ok o => o
  | .error e => .caughtError e

/-- The per-file loop of the batch script's `main`. -/
def batchLoop (fs : FSModel) : List (List Char) → List BatchOutcome
  | [] => []
  | p :: ps =>
    (if fs.fexists p then runCatch (processFileExc fs p) else .skippedMissing) ::
      batchLoop fs ps

/-- The hardcoded location list of the batch script. -/
def batch_files : List (List Char) :=
  [lstr "src/__tests__/createClient.test.ts",
   lstr "src/__tests__/exports.test.ts",
   lstr "src/client/__tests__/bridgeClient.test.ts",
   lstr "src/client/__tests__/bridgeClientDisposal.test.ts",
   lstr "src/client/__tests__/bridgeClientMcpIntegration.test.ts",
   lstr "src/client/__tests__/bridgeClientRegistries.test.ts",
   lstr "src/client/__tests__/bridgeClientToolIntegration.test.ts",
   lstr "src/client/__tests__/bridgeClientErrorLogging.test.ts",
   lstr "src/__tests__/e2e/anthropic/chat.e2e.test.ts",
   lstr "src/__tests__/e2e/anthropic/mcpTools.e2e.test.ts",
   lstr "src/__tests__/e2e/anthropic/stdioMcpTools.e2e.test.ts",
   lstr "src/__tests__/e2e/google/chat.e2e.test.ts",
   lstr "src/__tests__/e2e/google/mcpTools.e2e.test.ts",
   lstr "src/__tests__/e2e/google/stdioMcpTools.e2e.test.ts",
   lstr "src/__tests__/e2e/openai/chat.e2e.test.ts",
   lstr "src/__tests__/e2e/openai/mcpTools.e2e.test.ts",
   lstr "src/__tests__/e2e/openai/stdioMcpTools.e2e.test.ts",
   lstr "src/__tests__/e2e/xai/chat.e2e.test.ts",
   lstr "src/__tests__/e2e/xai/mcpTools.e2e.test.ts",
   lstr "src/__tests__/e2e/xai/stdioMcpTools.e2e.test.ts",
   lstr "src/__tests__/e2e/shared/anthropicModelHelpers.ts",
   lstr "src/__tests__/e2e/shared/createMcpTestClient.ts",
   lstr "src/__tests__/e2e/shared/createMcpTestConfig.ts",
   lstr "src/__tests__/e2e/shared/googleModelHelpers.ts",
   lstr "src/__tests__/e2e/shared/mcpTestHelpers.test.ts",
   lstr "src/__tests__/e2e/shared/openAIModelHelpers.ts",
   lstr "src/__tests__/e2e/shared/rateLimiting/createRateLimitedTestClient.ts",
   lstr "src/__tests__/e2e/shared/xaiModelHelpers.ts",
   lstr "src/core/agent/cancellation/__tests__/cancellationIntegration.test.ts",
   lstr "src/core/config/__tests__/bridgeConfigSchema.test.ts",
   lstr "src/core/config/__tests__/rateLimitingConfig.test.ts",
   lstr "src/index.ts",
   lstr "src/client/index.ts"]

/-- `main` of the batch script: exit status (always 0, the script never
raises out of the loop) and the per-file outcomes. -/
def batch_main (fs : FSModel) : Nat × List BatchOutcome :=
  (0, batchLoop fs batch_files)

/-- `main` of the single-file script: exit status and the writes performed
(location, content written).  A failed read or write raises, is reported
and exits with status 1. -/
def single_main (fs : FSModel) (file_path : List Char) :
    Nat × List (List Char × List Char) :=
  match fs.fread file_path with
  | .error _ => (1, [])
  | .ok content =>
    let updated_content := update_provider_configs content
    match fs.fwrite file_path updated_content with
    | .error _ => (1, [])
    | .ok _ => (0, [(file_path, updated_content)])

/-- A file-system oracle in which every location holds the text `hello`
and writes succeed; used to exercise the pipeline theorems. -/
def fsHello : FSModel where
  fexists := fun _ => true
  fread := fun _ => .ok (lstr "hello")
  fwrite := fun _ _ => .ok ()

/-
Basic lemmas about the pipelines.
-/

theorem batchLoop_length (fs : FSModel) (l : List (List Char)) :
    (batchLoop fs l).length = l.length := by
  induction l with
  | nil => rfl
  | cons p ps ih => simp [batchLoop, ih]

theorem update_provider_config_guard (content filename : List Char)
    (h1 : (lstr "default: \x7b") <:+: content)
    (h2 : (lstr "providers: \x7b") <:+: content) :
    update_provider_config content filename = (content, []) := by
  unfold update_provider_config
  rw [if_pos ⟨h1, h2⟩]

/-- C2: for every input text that contains both the substring `default: {`
and the substring `providers: {`, the batch transform returns the text
unchanged (no rewrite pass is applied). -/
theorem claim2_already_migrated_skip (content filename : List Char)
    (h1 : (lstr "default: \x7b") <:+: content)
    (h2 : (lstr "providers: \x7b") <:+: content) :
    (update_provider_config content filename).1 = content := by
  rw [update_provider_config_guard content filename h1 h2]

theorem claim2_witness :
    ((lstr "default: \x7b") <:+: lstr "default: \x7b providers: \x7b" ∧
     (lstr "providers: \x7b") <:+: lstr "default: \x7b providers: \x7b") ∧
    (update_provider_config (lstr "default: \x7b providers: \x7b") (lstr "f")).1 =
      lstr "default: \x7b providers: \x7b" :=
  ⟨⟨by decide, by decide⟩,
   claim2_already_migrated_skip _ _ (by decide) (by decide)⟩

/-- C3: for every input whose transform result contains both `default: {`
and `providers: {` (the inputs on which the idempotence guard's heuristic
is reliable), applying the batch transform twice equals applying it once. -/
theorem claim3_idempotent (x filename : List Char)
    (h1 : (lstr "default: \x7b") <:+: (update_provider_config x filename).1)
    (h2 : (lstr "providers: \x7b") <:+: (update_provider_config x filename).1) :
    (update_provider_config (update_provider_config x filename).1 filename).1 =
      (update_provider_config x filename).1 := by
  rw [update_provider_config_guard _ filename h1 h2]

theorem claim3_witness :
    ((lstr "default: \x7b") <:+:
        (update_provider_config (lstr "default: \x7b providers: \x7b") (lstr "f")).1 ∧
     (lstr "providers: \x7b") <:+:
        (update_provider_config (lstr "default: \x7b providers: \x7b") (lstr "f")).1) ∧
    (update_provider_config
        (update_provider_config (lstr "default: \x7b providers: \x7b") (lstr "f")).1
        (lstr "f")).1 =
      (update_provider_config (lstr "default: \x7b providers: \x7b") (lstr "f")).1 :=
  ⟨⟨by decide, by decide⟩, claim3_idempotent _ _ (by decide) (by decide)⟩

/-- C10: the batch transform's resulting text depends only on the input
text, not on the filename argument (the filename only enters the log). -/
theorem claim10_filename_independent (content f1 f2 : List Char) :
    (update_provider_config content f1).1 = (update_provider_config content f2).1 := by
  by_cases h : (lstr "default: \x7b") <:+: content ∧ (lstr "providers: \x7b") <:+: content
  · rw [update_provider_config_guard content f1 h.1 h.2,
        update_provider_config_guard content f2 h.1 h.2]
  · unfold update_provider_config
    rw [if_neg h, if_neg h]

/-- C8: the batch entry point always exits with status 0, produces one
outcome per configured location, and processing a location (whatever its
outcome, including a caught read or write error) leaves the processing of
the remaining locations unchanged. -/
theorem claim8_failsoft (fs : FSModel) :
    (batch_main fs).1 = 0 ∧
    (batch_main fs).2.length = batch_files.length ∧
    ∀ p ps, batchLoop fs (p :: ps) =
      (if fs.fexists p then runCatch (processFileExc fs p) else .skippedMissing) ::
        batchLoop fs ps :=
  ⟨rfl, batchLoop_length fs batch_files, fun _ _ => rfl⟩

/-
Engine lemmas.
-/

theorem eps_run (s : List Char) (caps : Caps) (k : MK) :
    matcherOf .eps s caps k = k s caps := rfl

theorem ch_run_nil (p : Char → Bool) (caps : Caps) (k : MK) :
    matcherOf (.ch p) [] caps k = none := rfl

theorem ch_run_cons (p : Char → Bool) (c : Char) (cs : List Char) (caps : Caps) (k : MK) :
    matcherOf (.ch p) (c :: cs) caps k = if p c then k cs caps else none := rfl

theorem seq_run (a b : RE) (s : List Char) (caps : Caps) (k : MK) :
    matcherOf (.seq a b) s caps k =
      matcherOf a s caps (fun s' caps' => matcherOf b s' caps' k) := rfl

theorem star_run (r : RE) (s : List Char) (caps : Caps) (k : MK) :
    matcherOf (.star r) s caps k = starFirst (matcherOf r) s.length s caps k := rfl

theorem group_run (n : Nat) (r : RE) (s : List Char) (caps : Caps) (k : MK) :
    matcherOf (.group n r) s caps k =
      matcherOf r s caps (fun s' caps' =>
        k s' ((n, s.take (s.length - s'.length)) :: caps')) := rfl

/-- A successful repetition hands the continuation a suffix of the input,
provided each iteration of the body does so. -/
theorem starFirst_some (m : List Char → Caps → MK → Option MRes)
    (hm : ∀ s caps k res, m s caps k = some res →
            ∃ s' caps', s' <:+ s ∧ k s' caps' = some res) :
    ∀ (fuel : Nat) (s : List Char) (caps : Caps) (k : MK) (res : MRes),
      starFirst m fuel s caps k = some res →
      ∃ s' caps', s' <:+ s ∧ k s' caps' = some res := by
  intro fuel
  induction fuel with
  | zero => exact fun s caps k res h => ⟨s, caps, List.suffix_refl s, h⟩
  | succ n ih =>
    intro s caps k res h
    simp only [starFirst] at h
    cases hm2 : m s caps (fun s' caps' =>
        if s'.length < s.length then starFirst m n s' caps' k else none) with
    | none =>
      rw [hm2] at h
      exact ⟨s, caps, List.suffix_refl s, h⟩
    | some r =>
      rw [hm2] at h
      obtain rfl : r = res := Option.some.inj h
      obtain ⟨s1, c1, hs1, hk1⟩ := hm _ _ _ _ hm2
      by_cases hlt : s1.length < s.length
      · rw [if_pos hlt] at hk1
        obtain ⟨s2, c2, hs2, hk2⟩ := ih s1 c1 k r hk1
        exact ⟨s2, c2, hs2.trans hs1, hk2⟩
      · rw [if_neg hlt] at hk1
        cases hk1

/-- A successful match hands the continuation a suffix of the input. -/
theorem matcherOf_some :
    ∀ (r : RE) (s : List Char) (caps : Caps) (k : MK) (res : MRes),
      matcherOf r s caps k = some res →
      ∃ s' caps', s' <:+ s ∧ k s' caps' = some res := by
  intro r
  induction r with
  | eps => exact fun s caps k res h => ⟨s, caps, List.suffix_refl s, h⟩
  | ch p =>
    intro s caps k res h
    match s with
    | [] => exact absurd h (by simp [ch_run_nil])
    | c :: cs =>
      rw [ch_run_cons] at h
      by_cases hp : p c
      · rw [if_pos hp] at h
        exact ⟨cs, caps, List.suffix_cons c cs, h⟩
      · rw [if_neg hp] at h
        cases h
  | seq a b iha ihb =>
    intro s caps k res h
    rw [seq_run] at h
    obtain ⟨s1, c1, hs1, hk1⟩ := iha s caps _ res h
    obtain ⟨s2, c2, hs2, hk2⟩ := ihb s1 c1 k res hk1
    exact ⟨s2, c2, hs2.trans hs1, hk2⟩
  | star r ihr =>
    intro s caps k res h
    rw [star_run] at h
    exact starFirst_some (matcherOf r) ihr s.length s caps k res h
  | group n r ihr =>
    intro s caps k res h
    rw [group_run] at h
    obtain ⟨s1, c1, hs1, hk1⟩ := ihr s caps _ res h
    exact ⟨s1, (n, s.take (s.length - s1.length)) :: c1, hs1, hk1⟩

/-- Matching a literal consumes exactly that literal. -/
theorem reStr_run :
    ∀ (w s : List Char) (caps : Caps) (k : MK),
      matcherOf (reStr w) s caps k =
        if w <+: s then k (s.drop w.length) caps else none := by
  intro w
  induction w with
  | nil =>
    intro s caps k
    rw [if_pos (List.nil_prefix)]
    rfl
  | cons c w ih =>
    intro s caps k
    match s with
    | [] =>
      rw [if_neg (by simp [List.prefix_nil])]
      rfl
    | d :: ds =>
      show matcherOf (.seq (.ch (fun x => x == c)) (reStr w)) (d :: ds) caps k = _
      rw [seq_run, ch_run_cons]
      by_cases hdc : d = c
      · subst hdc
        rw [if_pos (by simp), ih ds caps k]
        by_cases hw : w <+: ds
        · rw [if_pos hw, if_pos (List.cons_prefix_cons.mpr ⟨rfl, hw⟩)]
          rfl
        · rw [if_neg hw, if_neg (fun hc => hw (List.cons_prefix_cons.mp hc).2)]
      · rw [if_neg (by simpa using hdc),
            if_neg (fun hc => hdc (List.cons_prefix_cons.mp hc).1.symm)]

/-- If the pattern hits nowhere, the substitution scan copies the text. -/
theorem subScan_id (r : RE) (repl : PyMatch → List Char) :
    ∀ (fuel : Nat) (s : List Char) (pos : Nat), s.length < fuel →
      searchHit r s = false → subScan r repl fuel pos s = s := by
  intro fuel
  induction fuel with
  | zero => intro s pos h; omega
  | succ n ih =>
    intro s pos hlen hhit
    match s with
    | [] =>
      have ht : topMatch r [] = none := by
        have : (topMatch r ([] : List Char)).isSome = false := by
          simpa [searchHit] using hhit
        exact Option.not_isSome_iff_eq_none.mp (by simp [this])
      simp [subScan, ht]
    | c :: cs =>
      have hhit2 : ((topMatch r (c :: cs)).isSome || searchHit r cs) = false := by
        simpa [searchHit] using hhit
      have ht : topMatch r (c :: cs) = none :=
        Option.not_isSome_iff_eq_none.mp (by simp_all)
      have hcs : searchHit r cs = false := by simp_all
      simp only [subScan, ht]
      rw [ih cs (pos + 1) (by simpa using Nat.lt_of_succ_lt_succ hlen) hcs]

/-- If the pattern hits nowhere, `re.sub` is the identity. -/
theorem pysub_id (r : RE) (repl : PyMatch → List Char) (s : List Char)
    (h : searchHit r s = false) : pysub r repl s = s :=
  subScan_id r repl (s.length + 1) s 0 (Nat.lt_succ_self _) h

/-- A hit means the pattern matches at the start of some suffix. -/
theorem searchHit_suffix (r : RE) :
    ∀ s : List Char, searchHit r s = true →
      ∃ s', s' <:+ s ∧ (topMatch r s').isSome := by
  intro s
  induction s with
  | nil =>
    intro h
    exact ⟨[], List.suffix_refl [], by simpa [searchHit] using h⟩
  | cons c cs ih =>
    intro h
    have h2 : (topMatch r (c :: cs)).isSome = true ∨ searchHit r cs = true := by
      simpa [searchHit, Bool.or_eq_true] using h
    cases h2 with
    | inl h2 => exact ⟨c :: cs, List.suffix_refl _, h2⟩
    | inr h2 =>
      obtain ⟨s', hs, ht⟩ := ih h2
      exact ⟨s', hs.trans (List.suffix_cons c cs), ht⟩

/-- No hit anywhere follows from the absence of a witness the pattern
necessarily consumes. -/
theorem searchHit_false_of (r : RE) (w : List Char)
    (hpat : ∀ s', (topMatch r s').isSome = true → w <:+: s')
    (s : List Char) (h : ¬ w <:+: s) : searchHit r s = false := by
  by_contra hne
  have htrue : searchHit r s = true := by
    cases hcase : searchHit r s with
    | false => exact absurd hcase hne
    | true => rfl
  obtain ⟨s', hs, ht⟩ := searchHit_suffix r s htrue
  exact h ((hpat s' ht).trans hs.isInfix)

/-- A successful anchored match of a pattern with a leading literal starts
with that literal. -/
theorem leading_lit (w : List Char) (rest : RE) (s : List Char)
    (h : (topMatch (.seq (reStr w) rest) s).isSome = true) : w <+: s := by
  unfold topMatch at h
  by_cases hw : w <+: s
  · exact hw
  · exfalso
    rw [seq_run, reStr_run, if_neg hw] at h
    simp at h

/-- A successful anchored match of `pre` followed by a literal contains
that literal. -/
theorem mid_lit (pre : RE) (w : List Char) (rest : RE) (s : List Char)
    (h : (topMatch (.seq pre (.seq (reStr w) rest)) s).isSome = true) : w <:+: s := by
  unfold topMatch at h
  cases hm : matcherOf (.seq pre (.seq (reStr w) rest)) s []
      (fun rest caps => some (rest.length, caps)) with
  | none => rw [hm] at h; simp at h
  | some res =>
    rw [seq_run] at hm
    obtain ⟨s1, c1, hs1, hk1⟩ := matcherOf_some pre s [] _ res hm
    have hw : w <+: s1 := by
      by_contra hnw
      rw [seq_run, reStr_run, if_neg hnw] at hk1
      cases hk1
    exact hw.isInfix.trans hs1.isInfix

/-- Matcher-level version of `mid_lit`. -/
theorem mid_lit_m (pre : RE) (w : List Char) (rest : RE) (s : List Char)
    (caps : Caps) (k : MK) (res : MRes)
    (h : matcherOf (.seq pre (.seq (reStr w) rest)) s caps k = some res) : w <:+: s := by
  rw [seq_run] at h
  obtain ⟨s1, c1, hs1, hk1⟩ := matcherOf_some pre s caps _ res h
  have hw : w <+: s1 := by
    by_contra hnw
    rw [seq_run, reStr_run, if_neg hnw] at hk1
    cases hk1
  exact hw.isInfix.trans hs1.isInfix

/-- Any match of the multiline pattern starts with `providers:`. -/
theorem multilinePat_lit (s : List Char)
    (h : (topMatch multilinePat s).isSome = true) : lstr "providers:" <:+: s := by
  unfold multilinePat at h
  exact (leading_lit _ mlTail s h).isInfix

/-- Any match of the env pattern contains `process.env.`. -/
theorem envPat_lit (s : List Char)
    (h : (topMatch envPat s).isSome = true) : lstr "process.env." <:+: s := by
  unfold envPat at h
  exact mid_lit envHead _ _ s h

/-- Any match of the return pattern contains `apiKey`. -/
theorem returnPat_lit (s : List Char)
    (h : (topMatch returnPat s).isSome = true) : lstr "apiKey" <:+: s := by
  unfold returnPat at h
  have h1 : lstr "apiKey:" <:+: s := mid_lit retHead _ _ s h
  have h2 : lstr "apiKey" <+: lstr "apiKey:" := by decide
  exact h2.isInfix.trans h1

/-- Any match of the const pattern contains `providers:`. -/
theorem constPat_lit (s : List Char)
    (h : (topMatch constPat s).isSome = true) : lstr "providers:" <:+: s := by
  unfold topMatch at h
  cases hm : matcherOf constPat s []
      (fun rest caps => some (rest.length, caps)) with
  | none => rw [hm] at h; simp at h
  | some res =>
    unfold constPat at hm
    rw [seq_run, group_run] at hm
    exact mid_lit_m constHead _ _ s _ _ res hm

/-- Any match of the single-file simple pattern starts with `providers:`. -/
theorem simplePatU_lit (s : List Char)
    (h : (topMatch simplePatU s).isSome = true) : lstr "providers:" <:+: s := by
  unfold simplePatU at h
  exact (leading_lit _ suTail s h).isInfix

/-- Any match of the single-file multi pattern starts with `providers:`. -/
theorem multiPatU_lit (s : List Char)
    (h : (topMatch multiPatU s).isSome = true) : lstr "providers:" <:+: s := by
  unfold multiPatU at h
  exact (leading_lit _ muTail s h).isInfix

/-- C5 (amended): text in which none of the pass patterns can match — in
particular containing none of the substrings `providers:`, `apiKey` and
`process.env.` — is returned unchanged by both the batch transform and the
single-file transform. -/
theorem claim5_amended (content filename : List Char)
    (h1 : ¬ (lstr "providers:") <:+: content)
    (h2 : ¬ (lstr "apiKey") <:+: content)
    (h3 : ¬ (lstr "process.env.") <:+: content) :
    (update_provider_config content filename).1 = content ∧
    update_provider_configs content = content := by
  have hml : searchHit multilinePat content = false :=
    searchHit_false_of _ _ multilinePat_lit content h1
  have henv : searchHit envPat content = false :=
    searchHit_false_of _ _ envPat_lit content h3
  have hret : searchHit returnPat content = false :=
    searchHit_false_of _ _ returnPat_lit content h2
  have hconst : searchHit constPat content = false :=
    searchHit_false_of _ _ constPat_lit content h1
  have hsu : searchHit simplePatU content = false :=
    searchHit_false_of _ _ simplePatU_lit content h1
  have hmu : searchHit multiPatU content = false :=
    searchHit_false_of _ _ multiPatU_lit content h1
  constructor
  · by_cases hg : (lstr "default: \x7b") <:+: content ∧
        (lstr "providers: \x7b") <:+: content
    · rw [update_provider_config_guard _ _ hg.1 hg.2]
    · unfold update_provider_config
      rw [if_neg hg]
      show pysub constPat replace_const_config
          (pysub returnPat replace_return_config
            (pysub envPat replace_env_assignment
              (pysub multilinePat replace_multiline_providers content))) = content
      rw [pysub_id _ _ _ hml, pysub_id _ _ _ henv, pysub_id _ _ _ hret,
          pysub_id _ _ _ hconst]
  · unfold update_provider_configs
    show pysub multiPatU replace_multi (pysub simplePatU replace_simple content) = content
    rw [pysub_id _ _ _ hsu, pysub_id _ _ _ hmu]

set_option maxRecDepth 100000 in
set_option maxHeartbeats 4000000 in
/-- C5 is false as stated: `port: process.env.PORT` contains neither a
`providers:` nor an `apiKey` substring, yet the batch transform rewrites it
(the environment-assignment pass matches). -/
theorem claim5_cex :
    ¬ (lstr "providers:") <:+: lstr "port: process.env.PORT" ∧
    ¬ (lstr "apiKey") <:+: lstr "port: process.env.PORT" ∧
    (update_provider_config (lstr "port: process.env.PORT") (lstr "f")).1 ≠
      lstr "port: process.env.PORT" := by
  refine ⟨by decide, by decide, by decide⟩

theorem claim5_witness :
    (¬ (lstr "providers:") <:+: lstr "hello" ∧
     ¬ (lstr "apiKey") <:+: lstr "hello" ∧
     ¬ (lstr "process.env.") <:+: lstr "hello") ∧
    ((update_provider_config (lstr "hello") (lstr "f")).1 = lstr "hello" ∧
     update_provider_configs (lstr "hello") = lstr "hello") :=
  ⟨⟨by decide, by decide, by decide⟩,
   claim5_amended (lstr "hello") (lstr "f") (by decide) (by decide) (by decide)⟩

/-- C9: the single-file pipeline writes the transformed result back
whenever the read and the write succeed, regardless of whether the content
changed; in particular on a file whose content matches no shape the file is
rewritten with byte-identical content and the run exits with status 0. -/
theorem claim9_always_writes :
    (∀ (fs : FSModel) (p content : List Char),
        fs.fread p = .ok content →
        fs.fwrite p (update_provider_configs content) = .ok () →
        single_main fs p = (0, [(p, update_provider_configs content)])) ∧
    (∀ (fs : FSModel) (p content : List Char),
        fs.fread p = .ok content →
        fs.fwrite p (update_provider_configs content) = .ok () →
        searchHit simplePatU content = false →
        searchHit multiPatU content = false →
        single_main fs p = (0, [(p, content)])) := by
  have hmain : ∀ (fs : FSModel) (p content : List Char),
      fs.fread p = .ok content →
      fs.fwrite p (update_provider_configs content) = .ok () →
      single_main fs p = (0, [(p, update_provider_configs content)]) := by
    intro fs p content hr hw
    unfold single_main
    rw [hr]
    show (match fs.fwrite p (update_provider_configs content) with
          | .error _ => (1, [])
          | .ok _ => (0, [(p, update_provider_configs content)])) = _
    rw [hw]
  refine ⟨hmain, ?_⟩
  intro fs p content hr hw h1 h2
  have hid : update_provider_configs content = content := by
    show pysub multiPatU replace_multi (pysub simplePatU replace_simple content) = content
    rw [pysub_id _ _ _ h1, pysub_id _ _ _ h2]
  have h := hmain fs p content hr hw
  rw [hid] at h
  exact h

theorem claim9_witness :
    (fsHello.fread (lstr "a.ts") = .ok (lstr "hello") ∧
     fsHello.fwrite (lstr "a.ts") (update_provider_configs (lstr "hello")) = .ok () ∧
     searchHit simplePatU (lstr "hello") = false ∧
     searchHit multiPatU (lstr "hello") = false) ∧
    single_main fsHello (lstr "a.ts") = (0, [(lstr "a.ts", lstr "hello")]) :=
  ⟨⟨rfl, rfl, by decide, by decide⟩,
   claim9_always_writes.2 fsHello (lstr "a.ts") (lstr "hello")
     rfl rfl (by decide) (by decide)⟩

/-- Greedy character-class repetition consumes a block of class characters
up to the first non-class character, then runs the continuation. -/
theorem starFirst_chRun (p : Char → Bool) :
    ∀ (xs : List Char) (fuel : Nat), xs.length ≤ fuel →
      ∀ (rest : List Char) (caps : Caps) (k : MK) (v : MRes),
      (∀ x ∈ xs, p x = true) →
      (∀ c cs, rest = c :: cs → p c = false) →
      k rest caps = some v →
      starFirst (matcherOf (.ch p)) fuel (xs ++ rest) caps k = some v := by
  intro xs
  induction xs with
  | nil =>
    intro fuel _ rest caps k v _ hrest hk
    match fuel with
    | 0 => simpa [starFirst] using hk
    | n+1 =>
      simp only [starFirst, List.nil_append]
      match rest with
      | [] => rw [ch_run_nil]; exact hk
      | c :: cs =>
        rw [ch_run_cons, if_neg (by simp [hrest c cs rfl])]
        exact hk
  | cons x xs ih =>
    intro fuel hfuel rest caps k v hall hrest hk
    match fuel with
    | 0 => exact absurd hfuel (by simp)
    | n+1 =>
      have hx : p x = true := hall x (by simp)
      have hstep : matcherOf (.ch p) ((x :: xs) ++ rest) caps
          (fun s' caps' => if s'.length < ((x :: xs) ++ rest).length then
              starFirst (matcherOf (.ch p)) n s' caps' k else none) = some v := by
        rw [List.cons_append, ch_run_cons, if_pos hx, if_pos (by simp)]
        exact ih n (Nat.le_of_succ_le_succ hfuel) rest caps k v
          (fun y hy => hall y (by simp [hy])) hrest hk
      simp only [starFirst]
      rw [hstep]

/-- Greedy `*` over a character class on a split input. -/
theorem starC_run (p : Char → Bool) (xs rest : List Char) (caps : Caps)
    (k : MK) (v : MRes)
    (hall : ∀ x ∈ xs, p x = true)
    (hrest : ∀ c cs, rest = c :: cs → p c = false)
    (hk : k rest caps = some v) :
    matcherOf (starC p) (xs ++ rest) caps k = some v := by
  show starFirst (matcherOf (.ch p)) (xs ++ rest).length (xs ++ rest) caps k = some v
  exact starFirst_chRun p xs (xs ++ rest).length (by simp) rest caps k v hall hrest hk

/-- Greedy `+` over a character class on a split input. -/
theorem plusC_run (p : Char → Bool) (x : Char) (xs rest : List Char)
    (caps : Caps) (k : MK) (v : MRes)
    (hall : ∀ y ∈ x :: xs, p y = true)
    (hrest : ∀ c cs, rest = c :: cs → p c = false)
    (hk : k rest caps = some v) :
    matcherOf (plusC p) ((x :: xs) ++ rest) caps k = some v := by
  show matcherOf (.seq (.ch p) (.star (.ch p))) ((x :: xs) ++ rest) caps k = some v
  rw [seq_run, List.cons_append, ch_run_cons, if_pos (hall x (by simp))]
  exact starC_run p xs rest caps _ v (fun y hy => hall y (by simp [hy])) hrest hk

/-- One step of the substitution scan at a nonempty match. -/
theorem subScan_step (r : RE) (repl : PyMatch → List Char) (fuel pos : Nat)
    (s : List Char) (consumed : Nat) (caps : Caps)
    (h : topMatch r s = some (consumed, caps)) (hc : consumed ≠ 0) :
    subScan r repl (fuel+1) pos s =
      repl ⟨pos, pos + consumed, (0, s.take consumed) :: caps⟩ ++
        subScan r repl fuel (pos + consumed) (s.drop consumed) := by
  simp [subScan, h, hc]

/-- The substitution scan of the empty text, for a pattern that does not
match the empty text. -/
theorem subScan_nil (r : RE) (repl : PyMatch → List Char)
    (h : topMatch r [] = none) :
    ∀ (fuel pos : Nat), subScan r repl fuel pos [] = [] := by
  intro fuel pos
  match fuel with
  | 0 => rfl
  | n+1 => simp [subScan, h]

/-- The env pattern matched against exactly `<name>: process.env.<VAR>`
consumes the whole text and captures the two identifiers. -/
theorem envPat_match (name var : List Char)
    (hn : name ≠ []) (hv : var ≠ [])
    (hnw : ∀ c ∈ name, isWordCh c = true)
    (hvw : ∀ c ∈ var, isWordCh c = true) :
    matcherOf envPat (name ++ (lstr ": process.env." ++ var)) []
      (fun rest caps => some (rest.length, caps)) = some (0, [(2, var), (1, name)]) := by
  have hA : ∀ caps : Caps, matcherOf (.group 2 (plusC isWordCh)) var caps
      (fun rest caps => some (rest.length, caps)) = some (0, (2, var) :: caps) := by
    intro caps
    rw [group_run]
    match var, hv with
    | v0 :: vtl, _ =>
      have h := plusC_run isWordCh v0 vtl [] caps
          (fun s' caps' => (fun rest caps => some (rest.length, caps)) s'
            ((2, (v0 :: vtl).take ((v0 :: vtl).length - s'.length)) :: caps'))
          (0, (2, v0 :: vtl) :: caps)
          (fun y hy => hvw y hy) (fun c cs h => by cases h) (by simp)
      simpa using h
  have hB : ∀ caps : Caps,
      matcherOf (.seq (reStr (lstr "process.env.")) (.group 2 (plusC isWordCh)))
        (lstr "process.env." ++ var) caps
        (fun rest caps => some (rest.length, caps)) = some (0, (2, var) :: caps) := by
    intro caps
    rw [seq_run, reStr_run, if_pos (List.prefix_append _ _), List.drop_left]
    exact hA caps
  have hC : ∀ caps : Caps,
      matcherOf (.seq (.ch isColon) (starC isPySpace)) (lstr ": process.env." ++ var) caps
        (fun s' caps' =>
          matcherOf (.seq (reStr (lstr "process.env.")) (.group 2 (plusC isWordCh)))
            s' caps' (fun rest caps => some (rest.length, caps)))
      = some (0, (2, var) :: caps) := by
    intro caps
    rw [show lstr ": process.env." ++ var = ':' :: (lstr " process.env." ++ var) from rfl]
    rw [seq_run, ch_run_cons, if_pos (by decide)]
    rw [show lstr " process.env." ++ var = [' '] ++ (lstr "process.env." ++ var) from rfl]
    refine starC_run isPySpace [' '] (lstr "process.env." ++ var) caps _ _
      (by decide) ?_ (hB caps)
    intro c cs h
    rw [show lstr "process.env." ++ var = 'p' :: (lstr "rocess.env." ++ var) from rfl] at h
    injection h with h1 _
    rw [← h1]
    decide
  match name, hn with
  | n0 :: ntl, _ =>
    rw [show envPat = .seq envHead
        (.seq (reStr (lstr "process.env.")) (.group 2 (plusC isWordCh))) from rfl]
    rw [seq_run]
    rw [show envHead = .seq (.group 1 (plusC isWordCh))
        (.seq (.ch isColon) (starC isPySpace)) from rfl]
    rw [seq_run, group_run]
    refine plusC_run isWordCh n0 ntl (lstr ": process.env." ++ var) []
      _ _ (fun y hy => hnw y hy) ?_ ?_
    · intro c cs h
      rw [show lstr ": process.env." ++ var = ':' :: (lstr " process.env." ++ var) from rfl] at h
      injection h with h1 _
      rw [← h1]
      decide
    · show matcherOf (.seq (.ch isColon) (starC isPySpace)) (lstr ": process.env." ++ var)
          ((1, ((n0 :: ntl) ++ (lstr ": process.env." ++ var)).take
              (((n0 :: ntl) ++ (lstr ": process.env." ++ var)).length -
                (lstr ": process.env." ++ var).length)) :: [])
          (fun s' caps' =>
            matcherOf (.seq (reStr (lstr "process.env.")) (.group 2 (plusC isWordCh)))
              s' caps' (fun rest caps => some (rest.length, caps)))
        = some (0, [(2, var), (1, n0 :: ntl)])
      rw [show ((n0 :: ntl) ++ (lstr ": process.env." ++ var)).take
            (((n0 :: ntl) ++ (lstr ": process.env." ++ var)).length -
              (lstr ": process.env." ++ var).length) = n0 :: ntl from by
          rw [List.length_append, Nat.add_sub_cancel]
          exact List.take_left (n0 :: ntl) (lstr ": process.env." ++ var)]
      exact hC [(1, n0 :: ntl)]

/-- C6: for every identifier `name` and environment-variable identifier
`VAR` (nonempty strings of word characters), the batch pipeline's
environment-assignment pass rewrites `<name>: process.env.<VAR>` to
`<name lower-cased>: { default: { apiKey: process.env.<VAR> }, }` with the
environment-variable identifier unchanged. -/
theorem claim6_env_assignment (name var : List Char)
    (hn : name ≠ []) (hv : var ≠ [])
    (hnw : ∀ c ∈ name, isWordCh c = true)
    (hvw : ∀ c ∈ var, isWordCh c = true) :
    pysub envPat replace_env_assignment (name ++ (lstr ": process.env." ++ var)) =
      pyLower name ++ (lstr ": \x7b\n            default: \x7b apiKey: process.env." ++
        (var ++ lstr " \x7d,\n          \x7d")) := by
  have hm := envPat_match name var hn hv hnw hvw
  have htop : topMatch envPat (name ++ (lstr ": process.env." ++ var)) =
      some ((name ++ (lstr ": process.env." ++ var)).length, [(2, var), (1, name)]) := by
    unfold topMatch
    rw [hm]
    simp
  have hne : (name ++ (lstr ": process.env." ++ var)).length ≠ 0 := by
    match name, hn with
    | n0 :: ntl, _ => simp
  show subScan envPat replace_env_assignment
      ((name ++ (lstr ": process.env." ++ var)).length + 1) 0
      (name ++ (lstr ": process.env." ++ var)) = _
  rw [subScan_step envPat replace_env_assignment _ 0 _ _ _ htop hne]
  rw [List.drop_length, subScan_nil envPat replace_env_assignment (by decide)]
  rw [List.take_length]
  show replace_env_assignment
      ⟨0, 0 + (name ++ (lstr ": process.env." ++ var)).length,
        [(0, name ++ (lstr ": process.env." ++ var)), (2, var), (1, name)]⟩ ++ [] = _
  rw [List.append_nil]
  simp [replace_env_assignment, pygroup, List.lookup]

theorem claim6_witness :
    ((lstr "openai" : List Char) ≠ [] ∧ (lstr "OPENAI_API_KEY" : List Char) ≠ [] ∧
     (∀ c ∈ lstr "openai", isWordCh c = true) ∧
     (∀ c ∈ lstr "OPENAI_API_KEY", isWordCh c = true)) ∧
    pysub envPat replace_env_assignment
        (lstr "openai" ++ (lstr ": process.env." ++ lstr "OPENAI_API_KEY")) =
      pyLower (lstr "openai") ++
        (lstr ": \x7b\n            default: \x7b apiKey: process.env." ++
          (lstr "OPENAI_API_KEY" ++ lstr " \x7d,\n          \x7d")) :=
  ⟨⟨by decide, by decide, by decide, by decide⟩,
   claim6_env_assignment (lstr "openai") (lstr "OPENAI_API_KEY")
     (by decide) (by decide) (by decide) (by decide)⟩

set_option maxRecDepth 100000 in
set_option maxHeartbeats 4000000 in
/-- C7 is false as stated: a standalone `<name>: { apiKey: <expr> }`
occurrence outside a `providers:` block, return statement or const
declaration is left unchanged by the batch transform (the script defines
`replace_simple_provider` but never installs `simple_pattern` as an
independent pass; it is used only inside the multiline and const passes). -/
theorem claim7_cex :
    (update_provider_config (lstr "foo: \x7b apiKey: \"x\" \x7d") (lstr "f")).1 =
      lstr "foo: \x7b apiKey: \"x\" \x7d" ∧
    ¬ (lstr "default") <:+: lstr "foo: \x7b apiKey: \"x\" \x7d" :=
  ⟨by decide, by decide⟩

set_option maxRecDepth 100000 in
set_option maxHeartbeats 4000000 in
/-- C7 (amended): in the batch pipeline the Simple Inline matcher is not an
independent pass; a `<name>: { apiKey: <expr> }` fragment is rewritten only
where `simple_pattern` is consulted, namely inside a matched
`providers: { ... }` (or const-declaration) block, while a standalone
occurrence is returned unchanged. -/
theorem claim7_amended :
    (update_provider_config (lstr "foo: \x7b apiKey: \"y\" \x7d") (lstr "f")).1 =
      lstr "foo: \x7b apiKey: \"y\" \x7d" ∧
    (update_provider_config (lstr "providers: \x7b foo: \x7b apiKey: \"x\" \x7d \x7d")
        (lstr "f")).1 =
      lstr "providers: \x7b\n          foo: \x7b\n            default: \x7b apiKey: \"x\" \x7d,\n          \x7d,\n        \x7d" :=
  ⟨by decide, by decide⟩

/-- The string-building loops of the replacement functions: a left fold
appending one entry per element equals the concatenation of all entries. -/
theorem foldl_append_flatten {α : Type} (f : α → List Char) (l : List α) :
    ∀ init : List Char,
      l.foldl (fun acc x => acc ++ f x) init = init ++ (l.map f).flatten := by
  induction l with
  | nil => intro init; simp
  | cons x xs ih => intro init; simp [ih, List.append_assoc]

/-- `replace_multiline_providers` on a block with at least one recognized
fragment emits exactly one wrapped entry per fragment, in match order. -/
theorem replace_multiline_providers_eq (m : PyMatch)
    (h : finditer simplePat (pygroup m 1) ≠ []) :
    replace_multiline_providers m =
      lstr "providers: \x7b\n" ++
        (((finditer simplePat (pygroup m 1)).map (mlEntry (pygroup m 1))).flatten ++
          lstr "        \x7d") := by
  show (if (finditer simplePat (pygroup m 1)).isEmpty then pygroup m 0
        else ((finditer simplePat (pygroup m 1)).foldl
          (fun result pm => result ++ mlEntry (pygroup m 1) pm)
          (lstr "providers: \x7b\n")) ++ lstr "        \x7d") = _
  rw [if_neg (by simpa [List.isEmpty_iff] using h), foldl_append_flatten,
      List.append_assoc]

/-- `replace_multi` on a block whose body yields at least two provider
pairs emits exactly one wrapped entry per pair, in match order. -/
theorem replace_multi_eq (m : PyMatch)
    (h : 2 ≤ (pyfindall providerPatU (pygroup m 1)).length) :
    replace_multi m =
      lstr "providers: \x7b\n" ++
        (((pyfindall providerPatU (pygroup m 1)).map muEntry).flatten ++
          lstr "        \x7d") := by
  show (if (pyfindall providerPatU (pygroup m 1)).length ≤ 1 then pygroup m 0
        else ((pyfindall providerPatU (pygroup m 1)).foldl
          (fun result pc => result ++ muEntry pc)
          (lstr "providers: \x7b\n")) ++ lstr "        \x7d") = _
  rw [if_neg (by omega), foldl_append_flatten, List.append_assoc]

set_option maxRecDepth 100000 in
set_option maxHeartbeats 8000000 in
/-- C1 is false as stated for the single-file pipeline's multi-provider
pass: on the spec's own two-provider block the greedy trailing `[^}]*` of
`multi_pattern` ends the match at the second provider's inner closing
brace, `findall` then recognizes only one pair inside the captured body,
and `replace_multi` returns the block unchanged — the output contains no
`default:`-wrapped entry at all instead of two. -/
theorem claim1_cex :
    update_provider_configs
        (lstr "providers: \x7b\n  openai: \x7b apiKey: \"sk-test\" \x7d,\n  anthropic: \x7b apiKey: \"sk-ant-test\" \x7d,\n\x7d") =
      lstr "providers: \x7b\n  openai: \x7b apiKey: \"sk-test\" \x7d,\n  anthropic: \x7b apiKey: \"sk-ant-test\" \x7d,\n\x7d" ∧
    ¬ (lstr "default") <:+:
      lstr "providers: \x7b\n  openai: \x7b apiKey: \"sk-test\" \x7d,\n  anthropic: \x7b apiKey: \"sk-ant-test\" \x7d,\n\x7d" :=
  ⟨by decide, by decide⟩

set_option maxRecDepth 100000 in
set_option maxHeartbeats 8000000 in
/-- C1 (amended): the batch pipeline's multiline pass rewrites a matched
block with N ≥ 1 recognized fragments to exactly N `default:`-wrapped
entries (one `mlEntry` per fragment of `finditer`, so with the same provider
names in the same order); the single-file pipeline's multi pass does the
same only when its provider pattern finds at least two pairs inside the
captured block body (otherwise the block is returned unchanged); and the
batch transform rewrites the openai/anthropic block to two individually
wrapped entries. -/
theorem claim1_amended :
    (∀ m : PyMatch, finditer simplePat (pygroup m 1) ≠ [] →
        replace_multiline_providers m =
          lstr "providers: \x7b\n" ++
            (((finditer simplePat (pygroup m 1)).map (mlEntry (pygroup m 1))).flatten ++
              lstr "        \x7d") ∧
          ((finditer simplePat (pygroup m 1)).map (mlEntry (pygroup m 1))).length =
            (finditer simplePat (pygroup m 1)).length) ∧
    (∀ m : PyMatch, 2 ≤ (pyfindall providerPatU (pygroup m 1)).length →
        replace_multi m =
          lstr "providers: \x7b\n" ++
            (((pyfindall providerPatU (pygroup m 1)).map muEntry).flatten ++
              lstr "        \x7d") ∧
          ((pyfindall providerPatU (pygroup m 1)).map muEntry).length =
            (pyfindall providerPatU (pygroup m 1)).length) ∧
    (update_provider_config
        (lstr "providers: \x7b\n  openai: \x7b apiKey: \"sk-test\" \x7d,\n  anthropic: \x7b apiKey: \"sk-ant-test\" \x7d,\n\x7d")
        (lstr "f")).1 =
      lstr "providers: \x7b\n          openai: \x7b\n            default: \x7b apiKey: \"sk-test\" \x7d,\n          \x7d,\n          anthropic: \x7b\n            default: \x7b apiKey: \"sk-ant-test\" \x7d,\n          \x7d,\n        \x7d" :=
  ⟨fun m h => ⟨replace_multiline_providers_eq m h, List.length_map _ _⟩,
   fun m h => ⟨replace_multi_eq m h, List.length_map _ _⟩,
   by decide⟩

set_option maxRecDepth 100000 in
set_option maxHeartbeats 4000000 in
theorem claim1_witness :
    (finditer simplePat (pygroup ⟨0, 0, [(1, lstr " a: \x7b apiKey: 1 \x7d ")]⟩ 1) ≠ [] ∧
     2 ≤ (pyfindall providerPatU
        (pygroup ⟨0, 0, [(1, lstr " a: \x7b x \x7d, b: \x7b y \x7d ")]⟩ 1)).length) ∧
    replace_multiline_providers ⟨0, 0, [(1, lstr " a: \x7b apiKey: 1 \x7d ")]⟩ =
      lstr "providers: \x7b\n" ++
        (((finditer simplePat (pygroup ⟨0, 0, [(1, lstr " a: \x7b apiKey: 1 \x7d ")]⟩ 1)).map
            (mlEntry (pygroup ⟨0, 0, [(1, lstr " a: \x7b apiKey: 1 \x7d ")]⟩ 1))).flatten ++
          lstr "        \x7d") ∧
    replace_multi ⟨0, 0, [(1, lstr " a: \x7b x \x7d, b: \x7b y \x7d ")]⟩ =
      lstr "providers: \x7b\n" ++
        (((pyfindall providerPatU
            (pygroup ⟨0, 0, [(1, lstr " a: \x7b x \x7d, b: \x7b y \x7d ")]⟩ 1)).map muEntry).flatten ++
          lstr "        \x7d") :=
  ⟨⟨by decide, by decide⟩,
   (claim1_amended.1 ⟨0, 0, [(1, lstr " a: \x7b apiKey: 1 \x7d ")]⟩ (by decide)).1,
   (claim1_amended.2.1 ⟨0, 0, [(1, lstr " a: \x7b x \x7d, b: \x7b y \x7d ")]⟩ (by decide)).1⟩

set_option maxRecDepth 100000 in
set_option maxHeartbeats 4000000 in
/-- C4 is false as stated: the environment-assignment pass lower-cases the
captured provider name, so the name in the output is not byte-identical to
the one captured from the input. -/
theorem claim4_cex :
    (lstr "OPENAI") <:+: lstr "OPENAI: process.env.FOO" ∧
    (update_provider_config (lstr "OPENAI: process.env.FOO") (lstr "f")).1 =
      lstr "openai: \x7b\n            default: \x7b apiKey: process.env.FOO \x7d,\n          \x7d" ∧
    ¬ (lstr "OPENAI") <:+:
      (update_provider_config (lstr "OPENAI: process.env.FOO") (lstr "f")).1 :=
  ⟨by decide, by decide, by decide⟩

/-- C4 (amended): for every recognized match the captured texts are copied
into the rewritten output with only nesting/wrapping added around them —
byte-identically for the multiline pass (provider name and config body) and
for the environment variable of the env pass, while the env pass
lower-cases the provider name. -/
theorem claim4_amended :
    (∀ m : PyMatch, replace_env_assignment m =
        pyLower (pygroup m 1) ++
          lstr ": \x7b\n            default: \x7b apiKey: process.env." ++
          pygroup m 2 ++ lstr " \x7d,\n          \x7d") ∧
    (∀ (pc : List Char) (pm : PyMatch), mlEntry pc pm =
        lstr "          " ++ pygroup pm 1 ++
          lstr ": \x7b\n            default: " ++
          mlConfigPart pc pm ++ lstr ",\n          \x7d,\n") ∧
    (∀ (m pm : PyMatch), pm ∈ finditer simplePat (pygroup m 1) →
        mlEntry (pygroup m 1) pm <:+: replace_multiline_providers m) := by
  refine ⟨fun m => rfl, fun pc pm => rfl, ?_⟩
  intro m pm hpm
  have hne : finditer simplePat (pygroup m 1) ≠ [] := by
    intro he
    rw [he] at hpm
    cases hpm
  rw [replace_multiline_providers_eq m hne]
  have h1 : mlEntry (pygroup m 1) pm ∈
      (finditer simplePat (pygroup m 1)).map (mlEntry (pygroup m 1)) :=
    List.mem_map_of_mem _ hpm
  have h2 : mlEntry (pygroup m 1) pm <:+:
      ((finditer simplePat (pygroup m 1)).map (mlEntry (pygroup m 1))).flatten :=
    List.infix_of_mem_flatten h1
  exact h2.trans ⟨lstr "providers: \x7b\n", lstr "        \x7d", List.append_assoc _ _ _⟩

set_option maxRecDepth 100000 in
set_option maxHeartbeats 4000000 in
theorem claim4_witness :
    (⟨1, 17, [(0, lstr "a: \x7b apiKey: 1 \x7d"), (1, lstr "a")]⟩ : PyMatch) ∈
      finditer simplePat (pygroup ⟨0, 0, [(1, lstr " a: \x7b apiKey: 1 \x7d ")]⟩ 1) ∧
    mlEntry (pygroup ⟨0, 0, [(1, lstr " a: \x7b apiKey: 1 \x7d ")]⟩ 1)
        ⟨1, 17, [(0, lstr "a: \x7b apiKey: 1 \x7d"), (1, lstr "a")]⟩ <:+:
      replace_multiline_providers ⟨0, 0, [(1, lstr " a: \x7b apiKey: 1 \x7d ")]⟩ :=
  ⟨by decide,
   claim4_amended.2.2 ⟨0, 0, [(1, lstr " a: \x7b apiKey: 1 \x7d ")]⟩
     ⟨1, 17, [(0, lstr "a: \x7b apiKey: 1 \x7d"), (1, lstr "a")]⟩ (by decide)⟩
